import Mathlib

/-!
# nbind: the construction bridge (`em/Creator.h`) and the reflection surface (`v8/NBind.h`)

`Creator<PolicyList, Bound, Args...>` has two entry points,

```
static inline Bound *create(typename BindingType<Args>::WireType... args) {
  return(new Bound(ArgFromWire<PolicyList, Args>(args).get(args)...));
}
static void createValue(ArgStorage &storage, typename BindingType<Args>::WireType... args) {
  static_cast<TemplatedArgStorage<Bound> &>(storage).init(ArgFromWire<PolicyList, Args>(args).get(args)...);
}
```

Both expand the pack `ArgFromWire<PolicyList, Args>(args).get(args)...` inside a
parenthesised call.  The embedding below keeps three things explicit:

* every call the two functions make into code they do not define is recorded in a
  trace (`Event`), so that "called once", "never called" and "never attempted" are
  statements about a list;
* a failure is an `Except.error`: either function stops at the first failing call
  and hands that error to its caller (the source has no handler);
* the order in which the arguments of the parenthesised call are evaluated is a
  parameter (`order`): C++ does not fix it, a compiler does.  One argument's
  `ArgFromWire<PolicyList, A>(w).get(w)` is evaluated as a unit, not interleaved with
  another argument's.

`TemplatedArgStorage`, `ArgFromWire` and `BindingType` are not defined in the two
files; what is assumed of them is said where they enter.
-/

namespace nbind

/-! ## What `Creator.h` uses and does not define -/

/-- The class template `ArgFromWire<PolicyList, Arg>`: a temporary built from the wire
value, and its member `get`, which is handed the wire value again. -/
structure ArgFromWire (W S V E : Type) where
  /-- the constructor `ArgFromWire<PolicyList, Arg>(w)` -/
  make : W → Except E S
  /-- the member call `.get(w)` on the temporary -/
  get : S → W → Except E V

/-- One instantiation `Creator<PolicyList, Bound, Args...>`: the policy list, the
conversion strategy `ArgFromWire<PolicyList, ·>` per declared argument type, and the
constructor of `Bound` that the converted arguments select. -/
structure Creator (PolicyList ArgT W S V E Bound : Type) where
  policies : PolicyList
  argFromWire : PolicyList → ArgT → ArgFromWire W S V E
  construct : List V → Except E Bound

/-- The calls `create` and `createValue` make, in the order they happen. -/
inductive Event (W V : Type) where
  /-- the temporary `ArgFromWire<PolicyList, Args_i>(w)` is built for argument `i` -/
  | argFromWire (i : Nat) (w : W)
  /-- `.get(w)` is called on the temporary of argument `i` -/
  | get (i : Nat) (w : W)
  /-- the constructor of `Bound` is entered by `new Bound(args...)` -/
  | construct (args : List V)
  /-- the member `init(args...)` of `TemplatedArgStorage<Bound>` is called -/
  | init (args : List V)
  deriving DecidableEq, Repr

/-- The storage slot `TemplatedArgStorage<Bound>`: raw until an object is built in it. -/
abbrev ArgStorage (Bound : Type) := Option Bound

/-- Modelled from the spec: `TemplatedArgStorage<Bound>::init` is not in `src/`.  The
spec has in-place construction initialize "the native object directly inside
caller-supplied ArgStorage": `init` runs the constructor of `Bound` on its arguments
and, when it returns, the slot holds the object; when it fails, the slot is as before. -/
def TemplatedArgStorage.init {V E Bound : Type} (construct : List V → Except E Bound)
    (storage : ArgStorage Bound) (args : List V) : ArgStorage Bound × Except E Unit :=
  match construct args with
  | .ok b => (some b, .ok ())
  | .error e => (storage, .error e)

/-! ## The pack expansion -/

section Embedding

variable {PolicyList ArgT W S V E Bound : Type}

/-- The value of `ArgFromWire<PolicyList, A>(w).get(w)`. -/
def convert (c : Creator PolicyList ArgT W S V E Bound) (p : ArgT × W) : Except E V :=
  match (c.argFromWire c.policies p.1).make p.2 with
  | .error e => .error e
  | .ok s => (c.argFromWire c.policies p.1).get s p.2

/-- The calls made by `ArgFromWire<PolicyList, A>(w).get(w)` for argument `i`: the
temporary is built, and `get` is called on it unless building it failed. -/
def convertCalls (c : Creator PolicyList ArgT W S V E Bound) (i : Nat) (p : ArgT × W) :
    List (Event W V) :=
  match (c.argFromWire c.policies p.1).make p.2 with
  | .error _ => [Event.argFromWire i p.2]
  | .ok _ => [Event.argFromWire i p.2, Event.get i p.2]

/-- Evaluation of the expanded pack, one argument at a time in the order `order`.
`pack` pairs each declared argument type with the wire value passed for it; `vals`
holds the converted value of every position evaluated so far.  The first failing
conversion ends the evaluation. -/
def evalArgs (c : Creator PolicyList ArgT W S V E Bound) (pack : List (ArgT × W)) :
    List (Fin pack.length) → (Fin pack.length → Option V) →
      List (Event W V) × Except E (Fin pack.length → Option V)
  | [], vals => ([], .ok vals)
  | i :: rest, vals =>
    match convert c (pack.get i) with
    | .error e => (convertCalls c i.val (pack.get i), .error e)
    | .ok v =>
      let r := evalArgs c pack rest (Function.update vals i (some v))
      (convertCalls c i.val (pack.get i) ++ r.1, r.2)

/-- The argument list of the call: each parameter, in declared order, takes the value
converted for its position. -/
def callArgs {n : Nat} (vals : Fin n → Option V) : List V :=
  (List.finRange n).filterMap vals

/-- What a call of `create` leaves behind: the calls it made, the heap, and the
pointer it returns (an index into the heap) or the failure it ends with. -/
structure Created (W V E Bound : Type) where
  trace : List (Event W V)
  heap : List Bound
  result : Except E Nat

/-- What a call of `createValue` leaves behind: the calls it made, the storage slots,
and `()` or the failure it ends with. -/
structure CreatedValue (W V E Bound : Type) where
  trace : List (Event W V)
  mem : Nat → ArgStorage Bound
  result : Except E Unit

/-- `Creator::create`: `return(new Bound(ArgFromWire<PolicyList, Args>(args).get(args)...));`
The new object is a fresh cell at the end of the heap and the pointer is its index. -/
def create (c : Creator PolicyList ArgT W S V E Bound) (heap : List Bound)
    (pack : List (ArgT × W)) (order : List (Fin pack.length)) : Created W V E Bound :=
  match evalArgs c pack order (fun _ => none) with
  | (t, .error e) => ⟨t, heap, .error e⟩
  | (t, .ok vals) =>
    match c.construct (callArgs vals) with
    | .error e => ⟨t ++ [Event.construct (callArgs vals)], heap, .error e⟩
    | .ok b => ⟨t ++ [Event.construct (callArgs vals)], heap ++ [b], .ok heap.length⟩

/-- `Creator::createValue`:
`static_cast<TemplatedArgStorage<Bound> &>(storage).init(ArgFromWire<PolicyList, Args>(args).get(args)...);`
The reference `storage` is the address of a slot in `mem`. -/
def createValue (c : Creator PolicyList ArgT W S V E Bound) (mem : Nat → ArgStorage Bound)
    (storage : Nat) (pack : List (ArgT × W)) (order : List (Fin pack.length)) :
    CreatedValue W V E Bound :=
  match evalArgs c pack order (fun _ => none) with
  | (t, .error e) => ⟨t, mem, .error e⟩
  | (t, .ok vals) =>
    let r := TemplatedArgStorage.init c.construct (mem storage) (callArgs vals)
    ⟨t ++ [Event.init (callArgs vals)], Function.update mem storage r.1, r.2⟩

/-- An evaluation order of a call with `n` arguments: every position, once. -/
def EvalOrder (n : Nat) (order : List (Fin n)) : Prop :=
  order.Perm (List.finRange n)

instance (n : Nat) (order : List (Fin n)) : Decidable (EvalOrder n order) := by
  unfold EvalOrder; infer_instance

/-- Arguments evaluated first to last. -/
def leftToRight (n : Nat) : List (Fin n) := List.finRange n

/-- Arguments evaluated last to first. -/
def rightToLeft (n : Nat) : List (Fin n) := (List.finRange n).reverse

/-- The positions whose conversion was started, in the order they were started. -/
def attempted (t : List (Event W V)) : List Nat :=
  t.filterMap fun ev => match ev with
    | Event.argFromWire i _ => some i
    | _ => none

/-- The argument lists the constructor of `Bound` was entered with through `new`. -/
def constructed (t : List (Event W V)) : List (List V) :=
  t.filterMap fun ev => match ev with
    | Event.construct args => some args
    | _ => none

/-- The argument lists `init` was called with. -/
def inits (t : List (Event W V)) : List (List V) :=
  t.filterMap fun ev => match ev with
    | Event.init args => some args
    | _ => none

/-- The positions of `order` up to and including the first one whose conversion
fails: all of `order` when none fails. -/
def throughFirstFailure (c : Creator PolicyList ArgT W S V E Bound) (pack : List (ArgT × W)) :
    List (Fin pack.length) → List (Fin pack.length)
  | [] => []
  | i :: rest =>
    match convert c (pack.get i) with
    | .error _ => [i]
    | .ok _ => i :: throughFirstFailure c pack rest

/-- Every conversion of the pack succeeds. -/
def AllConvert (c : Creator PolicyList ArgT W S V E Bound) (pack : List (ArgT × W)) : Prop :=
  ∀ p ∈ pack, ∃ v, convert c p = Except.ok v

/-- The conversion of at least one argument of the pack fails. -/
def SomeFails (c : Creator PolicyList ArgT W S V E Bound) (pack : List (ArgT × W)) : Prop :=
  ∃ p ∈ pack, ∃ e, convert c p = Except.error e

/-- Whether an outcome is a value rather than a failure. -/
def succeeds (r : Except E V) : Bool :=
  match r with
  | .ok _ => true
  | .error _ => false

instance (c : Creator PolicyList ArgT W S V E Bound) (pack : List (ArgT × W)) :
    Decidable (AllConvert c pack) :=
  decidable_of_iff (∀ p ∈ pack, succeeds (convert c p) = true) <| by
    unfold AllConvert
    refine forall_congr' fun p => forall_congr' fun _ => ?_
    cases convert c p <;> simp [succeeds]

instance (c : Creator PolicyList ArgT W S V E Bound) (pack : List (ArgT × W)) :
    Decidable (SomeFails c pack) :=
  decidable_of_iff (∃ p ∈ pack, succeeds (convert c p) = false) <| by
    unfold SomeFails
    refine exists_congr fun p => and_congr_right fun _ => ?_
    cases convert c p <;> simp [succeeds]

end Embedding

/-! ## The scenario of the specification: a class built from `(integer, string)` -/

namespace Scenario

/-- Modelled from the spec: wire values have a dynamic kind, here a number or a string. -/
inductive WireValue where
  | num (n : Int)
  | str (s : String)
  deriving DecidableEq, Repr

/-- The declared argument types of the scenario. -/
inductive ArgType where
  | integer
  | string
  deriving DecidableEq, Repr

/-- The native values the conversions produce. -/
inductive Native where
  | int (n : Int)
  | text (s : String)
  deriving DecidableEq, Repr

/-- Modelled from the spec: a ConversionError names the expected type and the
offending wire value. -/
structure ConversionError where
  expected : ArgType
  offending : WireValue
  deriving DecidableEq, Repr

/-- The failures of the scenario: of a conversion, or of the constructor of `Bound`. -/
inductive Failure where
  | conversion (e : ConversionError)
  | construction (reason : String)
  deriving DecidableEq, Repr

/-- The two policies of the scenario. -/
inductive Policy where
  | byValue
  | byConstReference
  deriving DecidableEq, Repr

/-- The bound class: one constructor taking `(integer, string)`. -/
structure Bound where
  n : Int
  s : String
  deriving DecidableEq, Repr

/-- Modelled from the spec: `ArgFromWire` is not in `src/`; "a numeric Policy rejects
non-numeric WireValues", and a string is accepted only at the string type. -/
def argFromWire (_ : List Policy) : ArgType → ArgFromWire WireValue Unit Native Failure
  | .integer =>
    { make := fun _ => .ok ()
      get := fun _ w => match w with
        | .num n => .ok (.int n)
        | w => .error (.conversion ⟨.integer, w⟩) }
  | .string =>
    { make := fun _ => .ok ()
      get := fun _ w => match w with
        | .str s => .ok (.text s)
        | w => .error (.conversion ⟨.string, w⟩) }

/-- The creator of the scenario: policies `{by-value, by-const-reference}` and the
constructor `Bound(integer, string)`. -/
def creator : Creator (List Policy) ArgType WireValue Unit Native Failure Bound where
  policies := [.byValue, .byConstReference]
  argFromWire := argFromWire
  construct := fun args => match args with
    | [.int n, .text s] => .ok ⟨n, s⟩
    | _ => .error (.construction "no constructor takes these arguments")

/-- The same class with a constructor that refuses a negative integer. -/
def strictCreator : Creator (List Policy) ArgType WireValue Unit Native Failure Bound where
  policies := [.byValue, .byConstReference]
  argFromWire := argFromWire
  construct := fun args => match args with
    | [.int n, .text s] =>
      if n < 0 then .error (.construction "negative") else .ok ⟨n, s⟩
    | _ => .error (.construction "no constructor takes these arguments")

/-- The call `(42, "x")`. -/
def goodArgs : List (ArgType × WireValue) := [(.integer, .num 42), (.string, .str "x")]

/-- The call `("bad", "x")`. -/
def badArgs : List (ArgType × WireValue) := [(.integer, .str "bad"), (.string, .str "x")]

/-- The call `(7, "y")`. -/
def sevenArgs : List (ArgType × WireValue) := [(.integer, .num 7), (.string, .str "y")]

/-- The call `(-1, "x")`, which the constructor of `strictCreator` refuses. -/
def negativeArgs : List (ArgType × WireValue) := [(.integer, .num (-1)), (.string, .str "x")]

/-- A call `("bad", 5)` in which both conversions fail. -/
def bothBadArgs : List (ArgType × WireValue) := [(.integer, .str "bad"), (.string, .num 5)]

/-- Three integer arguments `[valid, invalid, valid]`. -/
def validInvalidValid : List (ArgType × WireValue) :=
  [(.integer, .num 1), (.integer, .str "bad"), (.integer, .num 3)]

end Scenario

/-! ## The reflection surface declared in `v8/NBind.h`

`NBind.h` declares `bind_value`, `reflect` and `queryType` and defines none of them.
-/

namespace NBind

/-- Modelled from the spec: the registry is not in `src/`.  One registered entity is
a primitive, type, class or method descriptor; the fields of a descriptor are a
contract between core and host and stay abstract. -/
inductive Descriptor (P T C M : Type) where
  | primitive (d : P)
  | type (d : T)
  | klass (d : C)
  | method (d : M)
  deriving DecidableEq, Repr

/-- A call of one of the host-supplied callbacks, with the descriptor handed to it. -/
inductive Callback (P T C M : Type) where
  | outPrimitive (d : P)
  | outType (d : T)
  | outClass (d : C)
  | outMethod (d : M)
  | outTypeDetail (d : T)
  deriving DecidableEq, Repr

/-- Modelled from the spec: the registry is not in `src/`.  It is the catalog of
registered descriptors, kept in registration order. -/
abbrev Registry (P T C M : Type) := List (Descriptor P T C M)

/-- The defined failure of `queryType`. -/
inductive UnknownTypeError where
  | unknownType
  deriving DecidableEq, Repr

/-- Modelled from the spec: registration is not in `src/`.  "Handles are assigned at
registration and are stable for the process lifetime": a descriptor is appended to
the catalog and its handle is its position there. -/
def register {P T C M : Type} (reg : Registry P T C M) (d : Descriptor P T C M) :
    Registry P T C M × Nat :=
  (reg ++ [d], reg.length)

/-- The callback that corresponds to a descriptor. -/
def visit {P T C M : Type} : Descriptor P T C M → Callback P T C M
  | .primitive d => .outPrimitive d
  | .type d => .outType d
  | .klass d => .outClass d
  | .method d => .outMethod d

/-- Modelled from the spec: the body of `NBind::reflect` is not in `src/`.  It "walks
the full registry once and, for every PrimitiveDescriptor, TypeDescriptor,
ClassDescriptor, and MethodDescriptor, invokes the corresponding host-provided
callback".  The registry is read, not changed; it is returned with the calls made. -/
def reflect {P T C M : Type} (reg : Registry P T C M) :
    Registry P T C M × List (Callback P T C M) :=
  (reg, reg.map visit)

/-- What a call of `queryType` leaves behind: the registry positions it read, the
callback calls it made, and `()` or the failure. -/
structure Queried (P T C M : Type) where
  reads : List Nat
  calls : List (Callback P T C M)
  result : Except UnknownTypeError Unit

/-- Modelled from the spec: the body of `NBind::queryType` is not in `src/`.  It
"resolves an OpaqueTypeHandle to its TypeDescriptor and invokes outTypeDetail with
the descriptor's fields"; a handle that "does not correspond to any registered type"
is the defined failure "unknown type". -/
def queryType {P T C M : Type} (reg : Registry P T C M) (type : Nat) : Queried P T C M :=
  if h : type < reg.length then
    match reg[type] with
    | .type d => ⟨[type], [.outTypeDetail d], .ok ()⟩
    | _ => ⟨[type], [], .error .unknownType⟩
  else ⟨[], [], .error .unknownType⟩

/-- The type descriptors among registered entities, in order. -/
def typesOf {P T C M : Type} (reg : Registry P T C M) : List T :=
  reg.filterMap fun d => match d with
    | .type t => some t
    | _ => none

/-- The primitive descriptors among registered entities, in order. -/
def primitivesOf {P T C M : Type} (reg : Registry P T C M) : List P :=
  reg.filterMap fun d => match d with
    | .primitive t => some t
    | _ => none

/-- The class descriptors among registered entities, in order. -/
def classesOf {P T C M : Type} (reg : Registry P T C M) : List C :=
  reg.filterMap fun d => match d with
    | .klass t => some t
    | _ => none

/-- The method descriptors among registered entities, in order. -/
def methodsOf {P T C M : Type} (reg : Registry P T C M) : List M :=
  reg.filterMap fun d => match d with
    | .method t => some t
    | _ => none

/-- The descriptors `outType` was called with, in call order. -/
def outTypeCalls {P T C M : Type} (cs : List (Callback P T C M)) : List T :=
  cs.filterMap fun cb => match cb with
    | .outType t => some t
    | _ => none

/-- The descriptors `outPrimitive` was called with, in call order. -/
def outPrimitiveCalls {P T C M : Type} (cs : List (Callback P T C M)) : List P :=
  cs.filterMap fun cb => match cb with
    | .outPrimitive t => some t
    | _ => none

/-- The descriptors `outClass` was called with, in call order. -/
def outClassCalls {P T C M : Type} (cs : List (Callback P T C M)) : List C :=
  cs.filterMap fun cb => match cb with
    | .outClass t => some t
    | _ => none

/-- The descriptors `outMethod` was called with, in call order. -/
def outMethodCalls {P T C M : Type} (cs : List (Callback P T C M)) : List M :=
  cs.filterMap fun cb => match cb with
    | .outMethod t => some t
    | _ => none

end NBind

/-! ## Evaluation of the pack: what is attempted, and what it yields -/

section Lemmas

variable {PolicyList ArgT W S V E Bound : Type}

theorem convertCalls_attempted (c : Creator PolicyList ArgT W S V E Bound) (i : Nat)
    (p : ArgT × W) : attempted (convertCalls c i p) = [i] := by
  unfold convertCalls attempted
  split <;> rfl

theorem convertCalls_constructed (c : Creator PolicyList ArgT W S V E Bound) (i : Nat)
    (p : ArgT × W) : constructed (convertCalls c i p) = [] := by
  unfold convertCalls constructed
  split <;> rfl

theorem convertCalls_inits (c : Creator PolicyList ArgT W S V E Bound) (i : Nat)
    (p : ArgT × W) : inits (convertCalls c i p) = [] := by
  unfold convertCalls inits
  split <;> rfl

theorem convertCalls_of_ok (c : Creator PolicyList ArgT W S V E Bound) (i : Nat)
    (p : ArgT × W) {v : V} (h : convert c p = .ok v) :
    convertCalls c i p = [Event.argFromWire i p.2, Event.get i p.2] := by
  unfold convert at h
  unfold convertCalls
  split
  · rename_i e he
    rw [he] at h
    cases h
  · rfl

theorem evalArgs_trace (c : Creator PolicyList ArgT W S V E Bound) (pack : List (ArgT × W))
    (order : List (Fin pack.length)) (vals : Fin pack.length → Option V) :
    (evalArgs c pack order vals).1 =
      (throughFirstFailure c pack order).flatMap fun i => convertCalls c i.val (pack.get i) := by
  induction order generalizing vals with
  | nil => rfl
  | cons i rest ih =>
    unfold evalArgs throughFirstFailure
    split
    · simp
    · simp [ih]

theorem attempted_append (t u : List (Event W V)) :
    attempted (t ++ u) = attempted t ++ attempted u := by
  unfold attempted
  exact List.filterMap_append _ _ _

theorem constructed_append (t u : List (Event W V)) :
    constructed (t ++ u) = constructed t ++ constructed u := by
  unfold constructed
  exact List.filterMap_append _ _ _

theorem inits_append (t u : List (Event W V)) :
    inits (t ++ u) = inits t ++ inits u := by
  unfold inits
  exact List.filterMap_append _ _ _

theorem attempted_flatMap (c : Creator PolicyList ArgT W S V E Bound) (pack : List (ArgT × W))
    (l : List (Fin pack.length)) :
    attempted (l.flatMap fun i => convertCalls c i.val (pack.get i)) = l.map Fin.val := by
  induction l with
  | nil => rfl
  | cons i rest ih =>
    rw [List.flatMap_cons, attempted_append, ih, convertCalls_attempted]
    rfl

theorem constructed_flatMap (c : Creator PolicyList ArgT W S V E Bound) (pack : List (ArgT × W))
    (l : List (Fin pack.length)) :
    constructed (l.flatMap fun i => convertCalls c i.val (pack.get i)) = [] := by
  induction l with
  | nil => rfl
  | cons i rest ih =>
    rw [List.flatMap_cons, constructed_append, ih, convertCalls_constructed]
    rfl

theorem inits_flatMap (c : Creator PolicyList ArgT W S V E Bound) (pack : List (ArgT × W))
    (l : List (Fin pack.length)) :
    inits (l.flatMap fun i => convertCalls c i.val (pack.get i)) = [] := by
  induction l with
  | nil => rfl
  | cons i rest ih =>
    rw [List.flatMap_cons, inits_append, ih, convertCalls_inits]
    rfl

/-- When every conversion along `order` succeeds nothing is cut short. -/
theorem throughFirstFailure_of_ok (c : Creator PolicyList ArgT W S V E Bound)
    (pack : List (ArgT × W)) (order : List (Fin pack.length))
    (h : ∀ i ∈ order, ∃ v, convert c (pack.get i) = Except.ok v) :
    throughFirstFailure c pack order = order := by
  induction order with
  | nil => rfl
  | cons i rest ih =>
    obtain ⟨v, hv⟩ := h i (List.mem_cons_self _ _)
    unfold throughFirstFailure
    rw [hv]
    simp only
    rw [ih fun j hj => h j (List.mem_cons_of_mem _ hj)]

/-- At a failing position the evaluation stops: nothing after it is kept. -/
theorem throughFirstFailure_subset (c : Creator PolicyList ArgT W S V E Bound)
    (pack : List (ArgT × W)) (pre post : List (Fin pack.length)) (i : Fin pack.length)
    {e : E} (hi : convert c (pack.get i) = Except.error e) :
    ∀ j ∈ throughFirstFailure c pack (pre ++ i :: post), j ∈ pre ++ [i] := by
  induction pre with
  | nil =>
    intro j hj
    simp only [List.nil_append] at hj ⊢
    unfold throughFirstFailure at hj
    rw [hi] at hj
    exact hj
  | cons k rest ih =>
    intro j hj
    simp only [List.cons_append] at hj ⊢
    unfold throughFirstFailure at hj
    split at hj
    · simp only [List.mem_singleton] at hj
      subst hj
      exact List.mem_cons_self _ _
    · rcases List.mem_cons.mp hj with h | h
      · subst h
        exact List.mem_cons_self _ _
      · exact List.mem_cons_of_mem _ (ih j h)

/-- The evaluation is a front part of the evaluation order. -/
theorem throughFirstFailure_front (c : Creator PolicyList ArgT W S V E Bound)
    (pack : List (ArgT × W)) (order : List (Fin pack.length)) :
    ∃ rest, order = throughFirstFailure c pack order ++ rest := by
  induction order with
  | nil => exact ⟨[], rfl⟩
  | cons i tl ih =>
    unfold throughFirstFailure
    split
    · exact ⟨tl, rfl⟩
    · obtain ⟨rest, hrest⟩ := ih
      exact ⟨rest, by rw [List.cons_append, ← hrest]⟩

/-- The failure of an evaluation is the failure of the first failing position. -/
theorem evalArgs_error (c : Creator PolicyList ArgT W S V E Bound) (pack : List (ArgT × W))
    (pre post : List (Fin pack.length)) (i : Fin pack.length) {e : E}
    (hpre : ∀ j ∈ pre, ∃ v, convert c (pack.get j) = Except.ok v)
    (hi : convert c (pack.get i) = Except.error e) (vals : Fin pack.length → Option V) :
    (evalArgs c pack (pre ++ i :: post) vals).2 = Except.error e := by
  induction pre generalizing vals with
  | nil =>
    simp only [List.nil_append]
    unfold evalArgs
    rw [hi]
  | cons k rest ih =>
    obtain ⟨v, hv⟩ := hpre k (List.mem_cons_self _ _)
    simp only [List.cons_append]
    unfold evalArgs
    rw [hv]
    exact ih (fun j hj => hpre j (List.mem_cons_of_mem _ hj)) _

/-- When every conversion along `order` succeeds, the evaluation ends with the value
of each evaluated position and leaves the others as they were. -/
theorem evalArgs_ok (c : Creator PolicyList ArgT W S V E Bound) (pack : List (ArgT × W))
    (order : List (Fin pack.length))
    (h : ∀ i ∈ order, ∃ v, convert c (pack.get i) = Except.ok v)
    (vals : Fin pack.length → Option V) :
    ∃ vals', (evalArgs c pack order vals).2 = Except.ok vals' ∧
      (∀ j ∈ order, ∀ v, convert c (pack.get j) = Except.ok v → vals' j = some v) ∧
      (∀ j, j ∉ order → vals' j = vals j) := by
  induction order generalizing vals with
  | nil => exact ⟨vals, rfl, by simp, by simp⟩
  | cons i rest ih =>
    obtain ⟨v, hv⟩ := h i (List.mem_cons_self _ _)
    obtain ⟨vals', h1, h2, h3⟩ :=
      ih (fun j hj => h j (List.mem_cons_of_mem _ hj)) (Function.update vals i (some v))
    refine ⟨vals', ?_, ?_, ?_⟩
    · unfold evalArgs
      rw [hv]
      exact h1
    · intro j hj w hw
      by_cases hjr : j ∈ rest
      · exact h2 j hjr w hw
      · have hji : j = i := by
          rcases List.mem_cons.mp hj with h | h
          · exact h
          · exact absurd h hjr
        subst hji
        rw [h3 j hjr, Function.update_same]
        rw [hv] at hw
        cases hw
        rfl
    · intro j hj
      have hji : j ≠ i := fun h => hj (h ▸ List.mem_cons_self _ _)
      have hjr : j ∉ rest := fun h => hj (List.mem_cons_of_mem _ h)
      rw [h3 j hjr, Function.update_noteq hji]

/-- The argument list assembled from a complete evaluation is the list of converted
values, in declared order. -/
theorem callArgs_eq (c : Creator PolicyList ArgT W S V E Bound) (pack : List (ArgT × W))
    (hall : AllConvert c pack) (vals : Fin pack.length → Option V)
    (h : ∀ j v, convert c (pack.get j) = Except.ok v → vals j = some v) :
    (callArgs vals).map Except.ok = pack.map (convert c) := by
  unfold callArgs
  rw [List.map_filterMap]
  have hfun : ∀ j ∈ List.finRange pack.length,
      Option.map (Except.ok : V → Except E V) (vals j) = (some ∘ fun k => convert c (pack.get k)) j := by
    intro j _
    obtain ⟨v, hv⟩ := hall (pack.get j) (List.get_mem _ _ _)
    rw [h j v hv, Function.comp_apply, hv]
    rfl
  rw [List.filterMap_congr hfun, List.filterMap_eq_map]
  conv_rhs => rw [← List.finRange_map_get pack]
  rw [List.map_map]
  rfl

/-- With every conversion succeeding, an evaluation in any order runs every
conversion of the order and ends with the converted values in declared order. -/
theorem evalArgs_all (c : Creator PolicyList ArgT W S V E Bound) (pack : List (ArgT × W))
    (order : List (Fin pack.length)) (hord : EvalOrder pack.length order)
    (hall : AllConvert c pack) :
    ∃ vals, evalArgs c pack order (fun _ => none) =
        (order.flatMap fun i => convertCalls c i.val (pack.get i), Except.ok vals) ∧
      (callArgs vals).map Except.ok = pack.map (convert c) := by
  have hok : ∀ i ∈ order, ∃ v, convert c (pack.get i) = Except.ok v :=
    fun i _ => hall (pack.get i) (List.get_mem _ _ _)
  obtain ⟨vals, h1, h2, _⟩ := evalArgs_ok c pack order hok (fun _ => none)
  refine ⟨vals, ?_, ?_⟩
  · have ht := evalArgs_trace c pack order (fun _ => none)
    rw [throughFirstFailure_of_ok c pack order hok] at ht
    exact Prod.ext ht h1
  · exact callArgs_eq c pack hall vals fun j v hv =>
      h2 j ((List.Perm.mem_iff hord).mpr (List.mem_finRange j)) v hv

/-- A failing position on the order makes the evaluation fail, with the failure of a
position of the order. -/
theorem evalArgs_fails (c : Creator PolicyList ArgT W S V E Bound) (pack : List (ArgT × W))
    (order : List (Fin pack.length))
    (h : ∃ i ∈ order, ∃ e, convert c (pack.get i) = Except.error e)
    (vals : Fin pack.length → Option V) :
    ∃ i ∈ order, ∃ e, convert c (pack.get i) = Except.error e ∧
      (evalArgs c pack order vals).2 = Except.error e := by
  induction order generalizing vals with
  | nil =>
    obtain ⟨i, hi, _⟩ := h
    cases hi
  | cons k rest ih =>
    cases hk : convert c (pack.get k) with
    | error e =>
      refine ⟨k, List.mem_cons_self _ _, e, hk, ?_⟩
      unfold evalArgs
      rw [hk]
    | ok v =>
      have hrest : ∃ i ∈ rest, ∃ e, convert c (pack.get i) = Except.error e := by
        obtain ⟨i, hi, e, he⟩ := h
        rcases List.mem_cons.mp hi with hik | hir
        · subst hik
          rw [hk] at he
          cases he
        · exact ⟨i, hir, e, he⟩
      obtain ⟨i, hi, e, he, hres⟩ := ih hrest (Function.update vals k (some v))
      refine ⟨i, List.mem_cons_of_mem _ hi, e, he, ?_⟩
      unfold evalArgs
      rw [hk]
      exact hres

/-- A failing argument of the pack is a failing position of every evaluation order. -/
theorem someFails_on_order (c : Creator PolicyList ArgT W S V E Bound) (pack : List (ArgT × W))
    (order : List (Fin pack.length)) (hord : EvalOrder pack.length order)
    (hfail : SomeFails c pack) :
    ∃ i ∈ order, ∃ e, convert c (pack.get i) = Except.error e := by
  obtain ⟨p, hp, e, he⟩ := hfail
  obtain ⟨i, hi⟩ := List.get_of_mem hp
  exact ⟨i, (List.Perm.mem_iff hord).mpr (List.mem_finRange i), e, by rw [hi]; exact he⟩

/-- With every conversion succeeding, `create` runs every conversion of the order,
enters the constructor with the converted values, and returns what it gives. -/
theorem create_all (c : Creator PolicyList ArgT W S V E Bound) (heap : List Bound)
    (pack : List (ArgT × W)) (order : List (Fin pack.length))
    (hord : EvalOrder pack.length order) (hall : AllConvert c pack) :
    ∃ as : List V, as.map Except.ok = pack.map (convert c) ∧
      (create c heap pack order).trace =
        (order.flatMap fun i => convertCalls c i.val (pack.get i)) ++ [Event.construct as] ∧
      (∀ b, c.construct as = Except.ok b →
        (create c heap pack order).result = Except.ok heap.length ∧
        (create c heap pack order).heap = heap ++ [b]) ∧
      (∀ e, c.construct as = Except.error e →
        (create c heap pack order).result = Except.error e ∧
        (create c heap pack order).heap = heap) := by
  obtain ⟨vals, hev, hargs⟩ := evalArgs_all c pack order hord hall
  refine ⟨callArgs vals, hargs, ?_, ?_, ?_⟩
  · unfold create
    rw [hev]
    simp only
    split <;> rfl
  · intro b hb
    unfold create
    rw [hev]
    simp only [hb]
    exact ⟨trivial, trivial⟩
  · intro e he
    unfold create
    rw [hev]
    simp only [he]
    exact ⟨trivial, trivial⟩

/-- With every conversion succeeding, `createValue` runs every conversion of the
order and calls `init` on the slot with the converted values. -/
theorem createValue_all (c : Creator PolicyList ArgT W S V E Bound)
    (mem : Nat → ArgStorage Bound) (storage : Nat)
    (pack : List (ArgT × W)) (order : List (Fin pack.length))
    (hord : EvalOrder pack.length order) (hall : AllConvert c pack) :
    ∃ as : List V, as.map Except.ok = pack.map (convert c) ∧
      (createValue c mem storage pack order).trace =
        (order.flatMap fun i => convertCalls c i.val (pack.get i)) ++ [Event.init as] ∧
      (createValue c mem storage pack order).mem =
        Function.update mem storage (TemplatedArgStorage.init c.construct (mem storage) as).1 ∧
      (createValue c mem storage pack order).result =
        (TemplatedArgStorage.init c.construct (mem storage) as).2 := by
  obtain ⟨vals, hev, hargs⟩ := evalArgs_all c pack order hord hall
  refine ⟨callArgs vals, hargs, ?_, ?_, ?_⟩ <;>
  · unfold createValue
    rw [hev]

/-- The list of converted values is determined by the conversions. -/
theorem converted_unique {as bs : List V} {l : List (Except E V)}
    (ha : as.map Except.ok = l) (hb : bs.map Except.ok = l) : as = bs := by
  have hinj : Function.Injective (Except.ok : V → Except E V) := by
    intro x y hxy
    cases hxy
    rfl
  exact List.map_injective_iff.mpr hinj (ha.trans hb.symm)

/-- A conversion that succeeds makes both calls, on the wire value of its position. -/
theorem convertCalls_flatMap_of_all (c : Creator PolicyList ArgT W S V E Bound)
    (pack : List (ArgT × W)) (hall : AllConvert c pack) (l : List (Fin pack.length)) :
    (l.flatMap fun i => convertCalls c i.val (pack.get i)) =
      l.flatMap fun i => [Event.argFromWire i.val (pack.get i).2, Event.get i.val (pack.get i).2] := by
  induction l with
  | nil => rfl
  | cons i rest ih =>
    obtain ⟨v, hv⟩ := hall (pack.get i) (List.get_mem _ _ _)
    rw [List.flatMap_cons, List.flatMap_cons, ih, convertCalls_of_ok c i.val _ hv]

/-- On an evaluation order every position occurs once. -/
theorem count_on_order {n : Nat} (order : List (Fin n)) (hord : EvalOrder n order)
    (i : Fin n) : (order.map Fin.val).count i.val = 1 := by
  rw [List.count_map_of_injective order Fin.val Fin.val_injective]
  rw [List.Perm.count_eq hord]
  exact List.count_eq_one_of_mem (List.nodup_finRange n) (List.mem_finRange i)

/-- With a failing conversion, an evaluation in any order is cut at the first failing
position of the order and ends with the failure of an argument of the pack. -/
theorem evalArgs_someFails (c : Creator PolicyList ArgT W S V E Bound) (pack : List (ArgT × W))
    (order : List (Fin pack.length)) (hord : EvalOrder pack.length order)
    (hfail : SomeFails c pack) (vals : Fin pack.length → Option V) :
    ∃ p ∈ pack, ∃ e, convert c p = Except.error e ∧
      evalArgs c pack order vals =
        ((throughFirstFailure c pack order).flatMap fun i => convertCalls c i.val (pack.get i),
          Except.error e) := by
  obtain ⟨i, _, e, he, hres⟩ :=
    evalArgs_fails c pack order (someFails_on_order c pack order hord hfail) vals
  exact ⟨pack.get i, List.get_mem _ _ _, e, he, Prod.ext (evalArgs_trace c pack order vals) hres⟩

theorem init_of_ok {b : Bound} (construct : List V → Except E Bound)
    (storage : ArgStorage Bound) (args : List V) (h : construct args = Except.ok b) :
    TemplatedArgStorage.init construct storage args = (some b, Except.ok ()) := by
  unfold TemplatedArgStorage.init
  rw [h]

theorem init_of_error {e : E} (construct : List V → Except E Bound)
    (storage : ArgStorage Bound) (args : List V) (h : construct args = Except.error e) :
    TemplatedArgStorage.init construct storage args = (storage, Except.error e) := by
  unfold TemplatedArgStorage.init
  rw [h]

/-- Whatever the conversions do, the positions `create` starts converting are those
of the order up to and including the first failing one. -/
theorem create_attempted (c : Creator PolicyList ArgT W S V E Bound) (heap : List Bound)
    (pack : List (ArgT × W)) (order : List (Fin pack.length)) :
    attempted (create c heap pack order).trace =
      (throughFirstFailure c pack order).map Fin.val := by
  have ht := evalArgs_trace c pack order (fun _ => none)
  unfold create
  split
  · rename_i t e he
    rw [he] at ht
    simp only at ht
    simp only [ht, attempted_flatMap]
  · rename_i t vals he
    rw [he] at ht
    simp only at ht
    split <;>
    · simp only [attempted_append, ht, attempted_flatMap]
      exact List.append_nil _

/-- Whatever the conversions do, the positions `createValue` starts converting are
those of the order up to and including the first failing one. -/
theorem createValue_attempted (c : Creator PolicyList ArgT W S V E Bound)
    (mem : Nat → ArgStorage Bound) (storage : Nat)
    (pack : List (ArgT × W)) (order : List (Fin pack.length)) :
    attempted (createValue c mem storage pack order).trace =
      (throughFirstFailure c pack order).map Fin.val := by
  have ht := evalArgs_trace c pack order (fun _ => none)
  unfold createValue
  split
  · rename_i t e he
    rw [he] at ht
    simp only at ht
    simp only [ht, attempted_flatMap]
  · rename_i t vals he
    rw [he] at ht
    simp only at ht
    simp only [attempted_append, ht, attempted_flatMap]
    exact List.append_nil _

/-- A position that comes after a failing one in the order is not started. -/
theorem not_started_after_failure (c : Creator PolicyList ArgT W S V E Bound)
    (pack : List (ArgT × W)) (pre post : List (Fin pack.length)) (i : Fin pack.length)
    (hnd : (pre ++ i :: post).Nodup) {e : E}
    (hi : convert c (pack.get i) = Except.error e) (j : Fin pack.length) (hj : j ∈ post) :
    j.val ∉ (throughFirstFailure c pack (pre ++ i :: post)).map Fin.val := by
  intro hmem
  obtain ⟨k, hk, hkj⟩ := List.mem_map.mp hmem
  have hkj' : k = j := Fin.ext hkj
  subst hkj'
  have hfront := throughFirstFailure_subset c pack pre post i hi k hk
  have hsplit : pre ++ i :: post = (pre ++ [i]) ++ post := by simp
  rw [hsplit] at hnd
  exact (List.nodup_append.mp hnd).2.2 hfront hj

/-- In the order first to last, the positions after `i` are the greater ones. -/
theorem finRange_split_after {n : Nat} (pre post : List (Fin n)) (i j : Fin n)
    (h : List.finRange n = pre ++ i :: post) (hij : i < j) : j ∈ post := by
  have hj : j ∈ pre ++ i :: post := h ▸ List.mem_finRange j
  have hpw : List.Pairwise (fun a b : Fin n => a < b) (pre ++ i :: post) :=
    h ▸ List.pairwise_lt_finRange n
  rcases List.mem_append.mp hj with hp | hp
  · have := (List.pairwise_append.mp hpw).2.2 j hp i (List.mem_cons_self _ _)
    exact absurd hij (lt_asymm this)
  · rcases List.mem_cons.mp hp with hq | hq
    · exact absurd hij (hq ▸ lt_irrefl _)
    · exact hq

/-- In the order first to last, the positions before `i` are the smaller ones. -/
theorem finRange_split_before {n : Nat} (pre post : List (Fin n)) (i j : Fin n)
    (h : List.finRange n = pre ++ i :: post) (hj : j ∈ pre) : j < i :=
  (List.pairwise_append.mp (h ▸ List.pairwise_lt_finRange n)).2.2 j hj i (List.mem_cons_self _ _)

/-- The failure `create` ends with is that of the first failing position of the order. -/
theorem create_error (c : Creator PolicyList ArgT W S V E Bound) (heap : List Bound)
    (pack : List (ArgT × W)) (pre post : List (Fin pack.length)) (i : Fin pack.length) {e : E}
    (hpre : ∀ j ∈ pre, ∃ v, convert c (pack.get j) = Except.ok v)
    (hi : convert c (pack.get i) = Except.error e) :
    (create c heap pack (pre ++ i :: post)).result = Except.error e := by
  have h := evalArgs_error c pack pre post i hpre hi (fun _ => none)
  unfold create
  split
  · rename_i t e' he
    rw [he] at h
    simpa using h
  · rename_i t vals he
    rw [he] at h
    cases h

/-- When one position alone fails, `create` ends with its failure under any order. -/
theorem create_error_of_only_failure (c : Creator PolicyList ArgT W S V E Bound)
    (heap : List Bound) (pack : List (ArgT × W)) (order : List (Fin pack.length))
    (hord : EvalOrder pack.length order) (i : Fin pack.length) {e : E}
    (hi : convert c (pack.get i) = Except.error e)
    (hothers : ∀ j, j ≠ i → ∃ v, convert c (pack.get j) = Except.ok v) :
    (create c heap pack order).result = Except.error e := by
  obtain ⟨pre, post, hsplit⟩ :=
    List.append_of_mem ((List.Perm.mem_iff hord).mpr (List.mem_finRange i))
  have hnd : (pre ++ i :: post).Nodup :=
    hsplit ▸ (List.Perm.nodup_iff hord).mpr (List.nodup_finRange _)
  rw [hsplit]
  refine create_error c heap pack pre post i (fun j hj => hothers j ?_) hi
  intro hji
  subst hji
  exact (List.nodup_append.mp hnd).2.2 hj (List.mem_cons_self _ _)

/-- The call `(42, "x")` of the scenario builds the object `(42, "x")` under any order. -/
theorem scenario_good_created (heap : List Scenario.Bound)
    (order : List (Fin Scenario.goodArgs.length))
    (hord : EvalOrder Scenario.goodArgs.length order) :
    (create Scenario.creator heap Scenario.goodArgs order).result = Except.ok heap.length ∧
      (create Scenario.creator heap Scenario.goodArgs order).heap[heap.length]? =
        some ⟨42, "x"⟩ := by
  obtain ⟨as, has, _, hok, _⟩ :=
    create_all Scenario.creator heap Scenario.goodArgs order hord (by decide)
  have hval : as = [Scenario.Native.int 42, Scenario.Native.text "x"] :=
    converted_unique has rfl
  subst hval
  obtain ⟨h1, h2⟩ := hok ⟨42, "x"⟩ rfl
  refine ⟨h1, ?_⟩
  rw [h2]
  exact List.getElem?_concat_length heap _

/-- The call `("bad", "x")` of the scenario ends with the failure of the integer
argument under any order. -/
theorem scenario_bad_error (heap : List Scenario.Bound)
    (order : List (Fin Scenario.badArgs.length))
    (hord : EvalOrder Scenario.badArgs.length order) :
    (create Scenario.creator heap Scenario.badArgs order).result =
      Except.error (.conversion ⟨.integer, .str "bad"⟩) := by
  refine create_error_of_only_failure Scenario.creator heap Scenario.badArgs order hord
    ⟨0, by decide⟩ rfl ?_
  intro j hj
  match j, hj with
  | ⟨0, _⟩, hj => exact absurd rfl hj
  | ⟨1, _⟩, _ => exact ⟨_, rfl⟩

end Lemmas

/-! ## The claims about `Creator::create` and `Creator::createValue` -/

section Claims

variable {PolicyList ArgT W S V E Bound : Type}

/-- Claim C2: when every conversion succeeds, `create`, under any evaluation order,
enters the constructor of `Bound` exactly once, with one argument per wire value in
declared order, the i-th being the value of `ArgFromWire<PolicyList, Args_i>(w_i).get(w_i)`;
every position is converted exactly once, its temporary and its `get` both receiving
the wire value of that position; and the pointer returned is that of the new object,
a fresh cell of the heap. -/
theorem create_passes_converted_arguments (c : Creator PolicyList ArgT W S V E Bound)
    (heap : List Bound) (pack : List (ArgT × W)) (order : List (Fin pack.length))
    (hord : EvalOrder pack.length order) (hall : AllConvert c pack) :
    ∃ as : List V, as.map Except.ok = pack.map (convert c) ∧
      as.length = pack.length ∧
      constructed (create c heap pack order).trace = [as] ∧
      (create c heap pack order).trace =
        (order.flatMap fun i =>
          [Event.argFromWire i.val (pack.get i).2, Event.get i.val (pack.get i).2]) ++
          [Event.construct as] ∧
      (∀ i : Fin pack.length, (attempted (create c heap pack order).trace).count i.val = 1) ∧
      (∀ b, c.construct as = Except.ok b →
        (create c heap pack order).result = Except.ok heap.length ∧
        (create c heap pack order).heap = heap ++ [b] ∧
        (create c heap pack order).heap[heap.length]? = some b) := by
  obtain ⟨as, has, htr, hok, _⟩ := create_all c heap pack order hord hall
  refine ⟨as, has, ?_, ?_, ?_, ?_, ?_⟩
  · have := congrArg List.length has
    simpa using this
  · rw [htr, constructed_append, constructed_flatMap]
    rfl
  · rw [htr, convertCalls_flatMap_of_all c pack hall]
  · intro i
    rw [htr, attempted_append, attempted_flatMap]
    have : attempted ([Event.construct as] : List (Event W V)) = [] := rfl
    rw [this, List.append_nil]
    exact count_on_order order hord i
  · intro b hb
    obtain ⟨h1, h2⟩ := hok b hb
    refine ⟨h1, h2, ?_⟩
    rw [h2]
    exact List.getElem?_concat_length heap b

/-- Claim C3: when the conversion of some argument fails, `create`, under any
evaluation order, never enters the constructor of `Bound`, leaves the heap as it was,
and ends with the failure of a conversion of one of its arguments. -/
theorem create_conversion_failure_skips_constructor
    (c : Creator PolicyList ArgT W S V E Bound)
    (heap : List Bound) (pack : List (ArgT × W)) (order : List (Fin pack.length))
    (hord : EvalOrder pack.length order) (hfail : SomeFails c pack) :
    constructed (create c heap pack order).trace = [] ∧
      (create c heap pack order).heap = heap ∧
      ∃ p ∈ pack, ∃ e, convert c p = Except.error e ∧
        (create c heap pack order).result = Except.error e := by
  obtain ⟨p, hp, e, he, hev⟩ := evalArgs_someFails c pack order hord hfail (fun _ => none)
  have hcr : create c heap pack order =
      ⟨(throughFirstFailure c pack order).flatMap fun i => convertCalls c i.val (pack.get i),
        heap, Except.error e⟩ := by
    unfold create
    rw [hev]
  rw [hcr]
  exact ⟨constructed_flatMap c pack _, rfl, p, hp, e, he, rfl⟩

/-- Claim C6: when the conversion of some argument fails, `createValue`, under any
evaluation order and for any slot, never calls `init`, leaves every slot as it was,
and ends with the failure of a conversion of one of its arguments. -/
theorem createValue_conversion_failure_skips_init
    (c : Creator PolicyList ArgT W S V E Bound)
    (mem : Nat → ArgStorage Bound) (storage : Nat)
    (pack : List (ArgT × W)) (order : List (Fin pack.length))
    (hord : EvalOrder pack.length order) (hfail : SomeFails c pack) :
    inits (createValue c mem storage pack order).trace = [] ∧
      (createValue c mem storage pack order).mem = mem ∧
      ∃ p ∈ pack, ∃ e, convert c p = Except.error e ∧
        (createValue c mem storage pack order).result = Except.error e := by
  obtain ⟨p, hp, e, he, hev⟩ := evalArgs_someFails c pack order hord hfail (fun _ => none)
  have hcv : createValue c mem storage pack order =
      ⟨(throughFirstFailure c pack order).flatMap fun i => convertCalls c i.val (pack.get i),
        mem, Except.error e⟩ := by
    unfold createValue
    rw [hev]
  rw [hcv]
  exact ⟨inits_flatMap c pack _, rfl, p, hp, e, he, rfl⟩

/-- Claim C7: for a raw slot and conversions that all succeed, one call of
`createValue`, under any evaluation order, calls `init` exactly once, on the supplied
slot and after the conversions, and makes no other call than these; every other slot
is as before; and when the constructor returns, the slot holds the new object. -/
theorem createValue_inits_once (c : Creator PolicyList ArgT W S V E Bound)
    (mem : Nat → ArgStorage Bound) (storage : Nat)
    (pack : List (ArgT × W)) (order : List (Fin pack.length))
    (hord : EvalOrder pack.length order) (hall : AllConvert c pack)
    (_hraw : mem storage = none) :
    ∃ as : List V, as.map Except.ok = pack.map (convert c) ∧
      (createValue c mem storage pack order).trace =
        (order.flatMap fun i =>
          [Event.argFromWire i.val (pack.get i).2, Event.get i.val (pack.get i).2]) ++
          [Event.init as] ∧
      inits (createValue c mem storage pack order).trace = [as] ∧
      constructed (createValue c mem storage pack order).trace = [] ∧
      (∀ a, a ≠ storage → (createValue c mem storage pack order).mem a = mem a) ∧
      (∀ b, c.construct as = Except.ok b →
        (createValue c mem storage pack order).mem storage = some b ∧
        (createValue c mem storage pack order).result = Except.ok ()) := by
  obtain ⟨as, has, htr, hmem, hres⟩ := createValue_all c mem storage pack order hord hall
  refine ⟨as, has, ?_, ?_, ?_, ?_, ?_⟩
  · rw [htr, convertCalls_flatMap_of_all c pack hall]
  · rw [htr, inits_append, inits_flatMap]
    rfl
  · rw [htr, constructed_append, constructed_flatMap]
    rfl
  · intro a ha
    rw [hmem, Function.update_noteq ha]
  · intro b hb
    rw [hmem, hres, init_of_ok c.construct (mem storage) as hb, Function.update_same]
    exact ⟨rfl, rfl⟩

/-- Claim C8: when every conversion succeeds and the constructor of `Bound` fails on
the converted arguments, `create` and `createValue`, under any evaluation order, end
with exactly that failure; the heap and the slots are as before. -/
theorem constructor_failure_propagates (c : Creator PolicyList ArgT W S V E Bound)
    (heap : List Bound) (mem : Nat → ArgStorage Bound) (storage : Nat)
    (pack : List (ArgT × W)) (order order' : List (Fin pack.length))
    (hord : EvalOrder pack.length order) (hord' : EvalOrder pack.length order')
    (hall : AllConvert c pack)
    (as : List V) (has : as.map Except.ok = pack.map (convert c))
    (e : E) (hctor : c.construct as = Except.error e) :
    (create c heap pack order).result = Except.error e ∧
      (create c heap pack order).heap = heap ∧
      (createValue c mem storage pack order').result = Except.error e ∧
      (createValue c mem storage pack order').mem = mem := by
  obtain ⟨as1, has1, _, _, herr⟩ := create_all c heap pack order hord hall
  obtain ⟨as2, has2, _, hmem, hres⟩ := createValue_all c mem storage pack order' hord' hall
  have e1 : as1 = as := converted_unique has1 has
  have e2 : as2 = as := converted_unique has2 has
  subst e1
  subst e2
  obtain ⟨h1, h2⟩ := herr e hctor
  refine ⟨h1, h2, ?_, ?_⟩
  · rw [hres, init_of_error c.construct (mem storage) _ hctor]
  · rw [hmem, init_of_error c.construct (mem storage) _ hctor]
    exact Function.update_eq_self storage mem

/-- Claim C1: when every conversion succeeds, `create` and `createValue`, each under
any evaluation order, hand the same list of converted arguments to the constructor of
`Bound` (through `new`, and through `init`); either both succeed and the object in the
slot is the object the returned pointer points to, or both end with the failure of the
constructor. -/
theorem create_matches_createValue (c : Creator PolicyList ArgT W S V E Bound)
    (heap : List Bound) (mem : Nat → ArgStorage Bound) (storage : Nat)
    (pack : List (ArgT × W)) (order order' : List (Fin pack.length))
    (hord : EvalOrder pack.length order) (hord' : EvalOrder pack.length order')
    (hall : AllConvert c pack) :
    ∃ as : List V, as.map Except.ok = pack.map (convert c) ∧
      constructed (create c heap pack order).trace = [as] ∧
      inits (createValue c mem storage pack order').trace = [as] ∧
      ((∃ ptr b, (create c heap pack order).result = Except.ok ptr ∧
          (create c heap pack order).heap[ptr]? = some b ∧
          (createValue c mem storage pack order').result = Except.ok () ∧
          (createValue c mem storage pack order').mem storage = some b) ∨
        (∃ e, c.construct as = Except.error e ∧
          (create c heap pack order).result = Except.error e ∧
          (createValue c mem storage pack order').result = Except.error e)) := by
  obtain ⟨as, has, htr, hok, herr⟩ := create_all c heap pack order hord hall
  obtain ⟨as2, has2, htr2, hmem, hres⟩ := createValue_all c mem storage pack order' hord' hall
  have e2 : as2 = as := converted_unique has2 has
  subst e2
  refine ⟨as2, has, ?_, ?_, ?_⟩
  · rw [htr, constructed_append, constructed_flatMap]
    rfl
  · rw [htr2, inits_append, inits_flatMap]
    rfl
  · cases hc : c.construct as2 with
    | ok b =>
      left
      obtain ⟨h1, h2⟩ := hok b hc
      refine ⟨heap.length, b, h1, ?_, ?_, ?_⟩
      · rw [h2]
        exact List.getElem?_concat_length heap b
      · rw [hres, init_of_ok c.construct (mem storage) as2 hc]
      · rw [hmem, init_of_ok c.construct (mem storage) as2 hc, Function.update_same]
    | error e =>
      right
      obtain ⟨h1, _⟩ := herr e hc
      refine ⟨e, rfl, h1, ?_⟩
      rw [hres, init_of_error c.construct (mem storage) as2 hc]

/-- Claim C4, as stated, fails: with three integer arguments `[valid, invalid, valid]`
evaluated last to first, an order the parenthesised call allows, the conversion of
the second argument fails and yet the conversion of the third argument has been
attempted, in `create` and in `createValue`. -/
theorem conversions_not_left_to_right :
    EvalOrder Scenario.validInvalidValid.length (rightToLeft Scenario.validInvalidValid.length) ∧
    convert Scenario.creator (Scenario.validInvalidValid.get ⟨1, by decide⟩) =
      Except.error (.conversion ⟨.integer, .str "bad"⟩) ∧
    (create Scenario.creator [] Scenario.validInvalidValid
        (rightToLeft Scenario.validInvalidValid.length)).trace =
      [Event.argFromWire 2 (.num 3), Event.get 2 (.num 3),
        Event.argFromWire 1 (.str "bad"), Event.get 1 (.str "bad")] ∧
    2 ∈ attempted (create Scenario.creator [] Scenario.validInvalidValid
        (rightToLeft Scenario.validInvalidValid.length)).trace ∧
    2 ∈ attempted (createValue Scenario.creator (fun _ => none) 0 Scenario.validInvalidValid
        (rightToLeft Scenario.validInvalidValid.length)).trace := by
  refine ⟨by decide, rfl, by decide, by decide, by decide⟩

/-- Claim C4, amended: in `create` and `createValue` the conversions are attempted one
at a time along the order in which the arguments of the call are evaluated, and stop
at the first failure: the positions attempted are a front part of that order, and a
position that comes after a failed one in that order is never attempted.  Where the
arguments are evaluated first to last, once the conversion of argument `i` has failed
no argument `j > i` is attempted. -/
theorem conversions_follow_evaluation_order (c : Creator PolicyList ArgT W S V E Bound)
    (heap : List Bound) (mem : Nat → ArgStorage Bound) (storage : Nat)
    (pack : List (ArgT × W)) (order : List (Fin pack.length))
    (hord : EvalOrder pack.length order) :
    (∃ rest, order.map Fin.val = attempted (create c heap pack order).trace ++ rest) ∧
    (∃ rest, order.map Fin.val =
      attempted (createValue c mem storage pack order).trace ++ rest) ∧
    (∀ pre i post, order = pre ++ i :: post →
      (∃ e, convert c (pack.get i) = Except.error e) →
      ∀ j ∈ post, j.val ∉ attempted (create c heap pack order).trace ∧
        j.val ∉ attempted (createValue c mem storage pack order).trace) ∧
    (∀ i j : Fin pack.length, (∃ e, convert c (pack.get i) = Except.error e) → i < j →
      j.val ∉ attempted (create c heap pack (leftToRight pack.length)).trace ∧
      j.val ∉ attempted (createValue c mem storage pack (leftToRight pack.length)).trace) := by
  have hfront : ∃ rest, order.map Fin.val =
      (throughFirstFailure c pack order).map Fin.val ++ rest := by
    obtain ⟨rest, hrest⟩ := throughFirstFailure_front c pack order
    exact ⟨rest.map Fin.val, by rw [← List.map_append, ← hrest]⟩
  refine ⟨?_, ?_, ?_, ?_⟩
  · rw [create_attempted]
    exact hfront
  · rw [createValue_attempted]
    exact hfront
  · intro pre i post hsplit hfail j hj
    obtain ⟨e, he⟩ := hfail
    have hnd : (pre ++ i :: post).Nodup :=
      hsplit ▸ (List.Perm.nodup_iff hord).mpr (List.nodup_finRange _)
    rw [create_attempted, createValue_attempted, hsplit]
    exact ⟨not_started_after_failure c pack pre post i hnd he j hj,
      not_started_after_failure c pack pre post i hnd he j hj⟩
  · intro i j hfail hij
    obtain ⟨e, he⟩ := hfail
    obtain ⟨pre, post, hsplit⟩ := List.append_of_mem (List.mem_finRange i)
    have hnd : (pre ++ i :: post).Nodup := hsplit ▸ List.nodup_finRange _
    have hj : j ∈ post := finRange_split_after pre post i j hsplit hij
    rw [create_attempted, createValue_attempted]
    unfold leftToRight
    rw [hsplit]
    exact ⟨not_started_after_failure c pack pre post i hnd he j hj,
      not_started_after_failure c pack pre post i hnd he j hj⟩

/-- Claim C5, as stated, fails in its general part: for the call `("bad", 5)` at
`(integer, string)` both conversions fail, and with the arguments evaluated last to
first `create` ends with the failure of the string argument, which is not that of
the leftmost failing argument, the integer one. -/
theorem create_reports_later_argument_failure :
    EvalOrder Scenario.bothBadArgs.length (rightToLeft Scenario.bothBadArgs.length) ∧
    convert Scenario.creator (Scenario.bothBadArgs.get ⟨0, by decide⟩) =
      Except.error (.conversion ⟨.integer, .str "bad"⟩) ∧
    (create Scenario.creator [] Scenario.bothBadArgs
        (rightToLeft Scenario.bothBadArgs.length)).result =
      Except.error (.conversion ⟨.string, .num 5⟩) ∧
    (create Scenario.creator [] Scenario.bothBadArgs
        (rightToLeft Scenario.bothBadArgs.length)).result ≠
      Except.error (.conversion ⟨.integer, .str "bad"⟩) := by
  refine ⟨by decide, rfl, rfl, ?_⟩
  intro h
  cases h

/-- Claim C5, amended: for the constructor bound at `(integer, string)`, `create` on
`(42, "x")` returns a valid pointer and on `("bad", "x")` ends with the
ConversionError of the integer argument, under any evaluation order.  In general,
when some conversion fails, `create` ends with the failure of the failing argument
that comes first in the order in which the arguments are evaluated: that is the
leftmost failing argument where they are evaluated first to last, and the one failing
argument where a single conversion fails. -/
theorem create_reports_first_evaluated_failure (c : Creator PolicyList ArgT W S V E Bound)
    (heap : List Bound) (pack : List (ArgT × W)) (order : List (Fin pack.length))
    (hord : EvalOrder pack.length order) :
    (∀ pre i post e, order = pre ++ i :: post →
      (∀ j ∈ pre, ∃ v, convert c (pack.get j) = Except.ok v) →
      convert c (pack.get i) = Except.error e →
      (create c heap pack order).result = Except.error e) ∧
    (∀ i e, convert c (pack.get i) = Except.error e →
      (∀ j, j < i → ∃ v, convert c (pack.get j) = Except.ok v) →
      (create c heap pack (leftToRight pack.length)).result = Except.error e) ∧
    (∀ i e, convert c (pack.get i) = Except.error e →
      (∀ j, j ≠ i → ∃ v, convert c (pack.get j) = Except.ok v) →
      (create c heap pack order).result = Except.error e) ∧
    (∀ (h : List Scenario.Bound) (o : List (Fin Scenario.goodArgs.length)),
      EvalOrder Scenario.goodArgs.length o →
      (create Scenario.creator h Scenario.goodArgs o).result = Except.ok h.length ∧
      (create Scenario.creator h Scenario.goodArgs o).heap[h.length]? = some ⟨42, "x"⟩) ∧
    (∀ (h : List Scenario.Bound) (o : List (Fin Scenario.badArgs.length)),
      EvalOrder Scenario.badArgs.length o →
      (create Scenario.creator h Scenario.badArgs o).result =
        Except.error (.conversion ⟨.integer, .str "bad"⟩)) := by
  refine ⟨?_, ?_, ?_, scenario_good_created, scenario_bad_error⟩
  · intro pre i post e hsplit hpre hi
    rw [hsplit]
    exact create_error c heap pack pre post i hpre hi
  · intro i e hi hbefore
    obtain ⟨pre, post, hsplit⟩ := List.append_of_mem (List.mem_finRange i)
    unfold leftToRight
    rw [hsplit]
    exact create_error c heap pack pre post i
      (fun j hj => hbefore j (finRange_split_before pre post i j hsplit hj)) hi
  · intro i e hi hothers
    exact create_error_of_only_failure c heap pack order hord i hi hothers

end Claims

/-! ## The claims about `NBind::queryType` and `NBind::reflect` -/

namespace NBind

section Registry

variable {P T C M : Type}

theorem queryType_of_type (reg : Registry P T C M) (type : Nat) (d : T)
    (h : reg[type]? = some (Descriptor.type d)) :
    queryType reg type = ⟨[type], [Callback.outTypeDetail d], Except.ok ()⟩ := by
  obtain ⟨hlt, hget⟩ := List.getElem?_eq_some_iff.mp h
  unfold queryType
  rw [dif_pos hlt]
  simp only [hget]

theorem queryType_reads_in_bounds (reg : Registry P T C M) (type : Nat) :
    ∀ k ∈ (queryType reg type).reads, k < reg.length := by
  intro k hk
  unfold queryType at hk
  split at hk
  · rename_i hlt
    split at hk <;>
    · simp only [List.mem_singleton] at hk
      exact hk ▸ hlt
  · cases hk

theorem queryType_of_unknown (reg : Registry P T C M) (type : Nat)
    (h : ∀ d, reg[type]? ≠ some (Descriptor.type d)) :
    (queryType reg type).result = Except.error UnknownTypeError.unknownType ∧
      (queryType reg type).calls = [] := by
  unfold queryType
  split
  · rename_i hlt
    split
    · rename_i d hd
      exact absurd (List.getElem?_eq_some_iff.mpr ⟨hlt, hd⟩) (h d)
    · exact ⟨rfl, rfl⟩
  · exact ⟨rfl, rfl⟩

/-- Claim C9: `queryType` on a handle that corresponds to no registered type ends with
UnknownTypeError and calls `outTypeDetail` on nothing; whatever the handle, it reads
no position outside the registry; and on the handle a registration returned, also
after later registrations, it succeeds and calls `outTypeDetail` once, with the
descriptor registered under that handle. -/
theorem queryType_defined (reg : Registry P T C M) :
    (∀ type, (∀ d, reg[type]? ≠ some (Descriptor.type d)) →
      (queryType reg type).result = Except.error UnknownTypeError.unknownType ∧
      (queryType reg type).calls = []) ∧
    (∀ type, ∀ k ∈ (queryType reg type).reads, k < reg.length) ∧
    (∀ type d, reg[type]? = some (Descriptor.type d) →
      (queryType reg type).result = Except.ok () ∧
      (queryType reg type).calls = [Callback.outTypeDetail d]) ∧
    (∀ (d : T) (later : Registry P T C M),
      (queryType ((register reg (Descriptor.type d)).1 ++ later)
        (register reg (Descriptor.type d)).2).result = Except.ok () ∧
      (queryType ((register reg (Descriptor.type d)).1 ++ later)
        (register reg (Descriptor.type d)).2).calls = [Callback.outTypeDetail d]) := by
  refine ⟨queryType_of_unknown reg, queryType_reads_in_bounds reg, ?_, ?_⟩
  · intro type d h
    rw [queryType_of_type reg type d h]
    exact ⟨rfl, rfl⟩
  · intro d later
    have h : ((register reg (Descriptor.type d)).1 ++ later)[(register reg
        (Descriptor.type d)).2]? = some (Descriptor.type d) := by
      unfold register
      simp only
      rw [List.append_assoc, List.getElem?_append_right (Nat.le_refl _), Nat.sub_self]
      exact List.getElem?_cons_zero
    rw [queryType_of_type _ _ d h]
    exact ⟨rfl, rfl⟩

/-- Claim C10: one call of `reflect` makes one callback call per registered
descriptor, the one matching its category, so that each of `outPrimitive`, `outType`,
`outClass` and `outMethod` receives exactly the registered descriptors of its
category, in registration order; the registry is unchanged and a repeated call makes
the same calls; with two types registered and no class, `outType` receives the two in
registration order and `outClass` is never called. -/
theorem reflect_visits_in_registration_order (reg : Registry P T C M) :
    outPrimitiveCalls (reflect reg).2 = primitivesOf reg ∧
    outTypeCalls (reflect reg).2 = typesOf reg ∧
    outClassCalls (reflect reg).2 = classesOf reg ∧
    outMethodCalls (reflect reg).2 = methodsOf reg ∧
    (reflect reg).2.length = reg.length ∧
    (∀ d, Callback.outTypeDetail d ∉ (reflect reg).2) ∧
    (reflect reg).1 = reg ∧
    (reflect (reflect reg).1).2 = (reflect reg).2 ∧
    (∀ t₁ t₂ : T,
      (reflect (register (register ([] : Registry P T C M) (Descriptor.type t₁)).1
        (Descriptor.type t₂)).1).2 = [Callback.outType t₁, Callback.outType t₂] ∧
      outClassCalls (reflect (register (register ([] : Registry P T C M)
        (Descriptor.type t₁)).1 (Descriptor.type t₂)).1).2 = []) := by
  refine ⟨?_, ?_, ?_, ?_, ?_, ?_, rfl, rfl, ?_⟩
  · unfold outPrimitiveCalls primitivesOf reflect
    rw [List.filterMap_map]
    exact List.filterMap_congr fun d _ => by cases d <;> rfl
  · unfold outTypeCalls typesOf reflect
    rw [List.filterMap_map]
    exact List.filterMap_congr fun d _ => by cases d <;> rfl
  · unfold outClassCalls classesOf reflect
    rw [List.filterMap_map]
    exact List.filterMap_congr fun d _ => by cases d <;> rfl
  · unfold outMethodCalls methodsOf reflect
    rw [List.filterMap_map]
    exact List.filterMap_congr fun d _ => by cases d <;> rfl
  · unfold reflect
    exact List.length_map _ _
  · intro d hd
    unfold reflect at hd
    obtain ⟨x, _, hx⟩ := List.mem_map.mp hd
    cases x <;> cases hx
  · intro t₁ t₂
    exact ⟨rfl, rfl⟩

/-- Scenario D: a type registered first gets a handle on which `queryType` succeeds
with its descriptor, and the next handle, which is registered to nothing, is unknown. -/
theorem queryType_defined_witness :
    (∀ d : String, ([Descriptor.type "Point"] : Registry Unit String Unit Unit)[1]? ≠
      some (Descriptor.type d)) ∧
    (queryType ([Descriptor.type "Point"] : Registry Unit String Unit Unit) 1).result =
      Except.error UnknownTypeError.unknownType ∧
    (queryType ([Descriptor.type "Point"] : Registry Unit String Unit Unit) 0).calls =
      [Callback.outTypeDetail "Point"] :=
  have hunknown : ∀ d : String,
      ([Descriptor.type "Point"] : Registry Unit String Unit Unit)[1]? ≠
        some (Descriptor.type d) := fun _ h => by cases h
  ⟨hunknown,
    ((queryType_defined ([Descriptor.type "Point"] : Registry Unit String Unit Unit)).1
      1 hunknown).1,
    ((queryType_defined ([Descriptor.type "Point"] : Registry Unit String Unit Unit)).2.2.1
      0 "Point" rfl).2⟩

end Registry

end NBind

/-! ## The claims at the calls of the scenario -/

section Witnesses

open Scenario

/-- Scenario B against scenario A: `(7, "y")` built in place, arguments evaluated last
to first, and on the heap, arguments evaluated first to last. -/
theorem create_matches_createValue_witness :
    EvalOrder sevenArgs.length (leftToRight sevenArgs.length) ∧
    EvalOrder sevenArgs.length (rightToLeft sevenArgs.length) ∧
    AllConvert creator sevenArgs ∧
    ∃ as : List Native, as.map Except.ok = sevenArgs.map (convert creator) ∧
      constructed (create creator [] sevenArgs (leftToRight sevenArgs.length)).trace = [as] ∧
      inits (createValue creator (fun _ => none) 0 sevenArgs
        (rightToLeft sevenArgs.length)).trace = [as] :=
  ⟨by decide, by decide, by decide,
    (create_matches_createValue creator [] (fun _ => none) 0 sevenArgs
      (leftToRight sevenArgs.length) (rightToLeft sevenArgs.length)
      (by decide) (by decide) (by decide)).imp
      fun _ h => ⟨h.1, h.2.1, h.2.2.1⟩⟩

/-- The call `(42, "x")`, arguments evaluated last to first: the constructor is
entered once and the two positions are converted once each. -/
theorem create_passes_converted_arguments_witness :
    EvalOrder goodArgs.length (rightToLeft goodArgs.length) ∧
    AllConvert creator goodArgs ∧
    ∃ as : List Native, as.map Except.ok = goodArgs.map (convert creator) ∧
      as.length = goodArgs.length ∧
      constructed (create creator [] goodArgs (rightToLeft goodArgs.length)).trace = [as] :=
  ⟨by decide, by decide,
    (create_passes_converted_arguments creator [] goodArgs (rightToLeft goodArgs.length)
      (by decide) (by decide)).imp
      fun _ h => ⟨h.1, h.2.1, h.2.2.1⟩⟩

/-- The call `("bad", "x")` on the heap: no constructor call, the heap as before. -/
theorem create_conversion_failure_skips_constructor_witness :
    EvalOrder badArgs.length (leftToRight badArgs.length) ∧
    SomeFails creator badArgs ∧
    constructed (create creator [] badArgs (leftToRight badArgs.length)).trace = [] ∧
    (create creator [] badArgs (leftToRight badArgs.length)).heap = [] :=
  ⟨by decide, by decide,
    (create_conversion_failure_skips_constructor creator [] badArgs
      (leftToRight badArgs.length) (by decide) (by decide)).1,
    (create_conversion_failure_skips_constructor creator [] badArgs
      (leftToRight badArgs.length) (by decide) (by decide)).2.1⟩

/-- The arguments `[valid, invalid, valid]`: evaluated first to last, the third is not
attempted. -/
theorem conversions_follow_evaluation_order_witness :
    EvalOrder validInvalidValid.length (rightToLeft validInvalidValid.length) ∧
    2 ∉ attempted (create creator [] validInvalidValid
      (leftToRight validInvalidValid.length)).trace :=
  ⟨by decide,
    ((conversions_follow_evaluation_order creator [] (fun _ => none) 0 validInvalidValid
      (rightToLeft validInvalidValid.length) (by decide)).2.2.2
      ⟨1, by decide⟩ ⟨2, by decide⟩ ⟨_, rfl⟩ (by decide)).1⟩

/-- The call `("bad", 5)`, evaluated first to last: the failure is that of the integer
argument, the leftmost failing one. -/
theorem create_reports_first_evaluated_failure_witness :
    EvalOrder bothBadArgs.length (rightToLeft bothBadArgs.length) ∧
    (create creator [] bothBadArgs (leftToRight bothBadArgs.length)).result =
      Except.error (.conversion ⟨.integer, .str "bad"⟩) :=
  ⟨by decide,
    (create_reports_first_evaluated_failure creator [] bothBadArgs
      (rightToLeft bothBadArgs.length) (by decide)).2.1
      ⟨0, by decide⟩ _ rfl (fun j hj => absurd hj (Nat.not_lt_zero _))⟩

/-- The call `("bad", "x")` in place: no call of `init`, the slots as before. -/
theorem createValue_conversion_failure_skips_init_witness :
    EvalOrder badArgs.length (rightToLeft badArgs.length) ∧
    SomeFails creator badArgs ∧
    inits (createValue creator (fun _ => none) 0 badArgs
      (rightToLeft badArgs.length)).trace = [] ∧
    (createValue creator (fun _ => none) 0 badArgs (rightToLeft badArgs.length)).mem =
      fun _ => none :=
  ⟨by decide, by decide,
    (createValue_conversion_failure_skips_init creator (fun _ => none) 0 badArgs
      (rightToLeft badArgs.length) (by decide) (by decide)).1,
    (createValue_conversion_failure_skips_init creator (fun _ => none) 0 badArgs
      (rightToLeft badArgs.length) (by decide) (by decide)).2.1⟩

/-- The call `(7, "y")` in place into the raw slot 0: one call of `init`. -/
theorem createValue_inits_once_witness :
    EvalOrder sevenArgs.length (leftToRight sevenArgs.length) ∧
    AllConvert creator sevenArgs ∧
    (fun _ => none : Nat → ArgStorage Bound) 0 = none ∧
    ∃ as : List Native, as.map Except.ok = sevenArgs.map (convert creator) ∧
      inits (createValue creator (fun _ => none) 0 sevenArgs
        (leftToRight sevenArgs.length)).trace = [as] :=
  ⟨by decide, by decide, rfl,
    (createValue_inits_once creator (fun _ => none) 0 sevenArgs
      (leftToRight sevenArgs.length) (by decide) (by decide) rfl).imp
      fun _ h => ⟨h.1, h.2.2.1⟩⟩

/-- The call `(-1, "x")` on the class whose constructor refuses a negative integer. -/
theorem constructor_failure_propagates_witness :
    EvalOrder negativeArgs.length (leftToRight negativeArgs.length) ∧
    EvalOrder negativeArgs.length (rightToLeft negativeArgs.length) ∧
    AllConvert strictCreator negativeArgs ∧
    [Native.int (-1), Native.text "x"].map Except.ok =
      negativeArgs.map (convert strictCreator) ∧
    strictCreator.construct [Native.int (-1), Native.text "x"] =
      Except.error (Failure.construction "negative") ∧
    (create strictCreator [] negativeArgs (leftToRight negativeArgs.length)).result =
      Except.error (Failure.construction "negative") ∧
    (createValue strictCreator (fun _ => none) 0 negativeArgs
      (rightToLeft negativeArgs.length)).result =
      Except.error (Failure.construction "negative") :=
  ⟨by decide, by decide, by decide, rfl, rfl,
    (constructor_failure_propagates strictCreator [] (fun _ => none) 0 negativeArgs
      (leftToRight negativeArgs.length) (rightToLeft negativeArgs.length)
      (by decide) (by decide) (by decide)
      [Native.int (-1), Native.text "x"] rfl (Failure.construction "negative") rfl).1,
    (constructor_failure_propagates strictCreator [] (fun _ => none) 0 negativeArgs
      (leftToRight negativeArgs.length) (rightToLeft negativeArgs.length)
      (by decide) (by decide) (by decide)
      [Native.int (-1), Native.text "x"] rfl (Failure.construction "negative") rfl).2.2.1⟩

end Witnesses

end nbind
